import Mathlib

/-!
Verification of the Burn-My-Windows transition-effect engine.

This development embeds, in Lean 4, the parts of the repository that the
specification's testable properties talk about:

* the fragment-stage compositor of `src/TVEffect.js` (`vfunc_build_pipeline`),
  modelled over exact rationals (GLSL floats become `ℚ`);
* the shader pool of `src/TVEffect.js` (`getShader`, `free`, `cleanUp`,
  `setUniforms`), modelled as explicit state passing over a pool state;
* the `begin-animation` uniform configuration of `src/Doom.js`.

All definitions are transcribed from the JavaScript/GLSL source; the theorems
below establish or refute the specification's claims about them.
-/

namespace BurnMyWindows

/-! ## GLSL primitives

GLSL built-ins used by the fragment code, over exact rationals. -/

/-- GLSL `clamp(x, lo, hi) = min(max(x, lo), hi)`. -/
def clamp (x lo hi : ℚ) : ℚ := min (max x lo) hi

/-- The cubic Hermite polynomial `t * t * (3 - 2 * t)` applied by GLSL
`smoothstep` to its clamped normalized position. -/
def hermite3 (t : ℚ) : ℚ := t * t * (3 - 2 * t)

/-- GLSL `smoothstep(e0, e1, x)`: clamp the normalized position to `[0,1]`,
then apply the cubic Hermite polynomial `t*t*(3 - 2*t)`. The fragment code
only ever calls it as `smoothstep(0, 1, x)`. -/
def smoothstep (e0 e1 x : ℚ) : ℚ :=
  hermite3 (clamp ((x - e0) / (e1 - e0)) 0 1)

/-- GLSL `mix(x, y, a) = x * (1 - a) + y * a`. -/
def mix (x y a : ℚ) : ℚ := x * (1 - a) + y * a

/-! ## TV effect fragment constants (`src/TVEffect.js`, declarations block) -/

/-- Width of the gradients (`const float BLUR_WIDTH = 0.01`). -/
def BLUR_WIDTH : ℚ := 1/100

/-- Relative time for the top/bottom animation (`const float TB_TIME = 0.7`). -/
def TB_TIME : ℚ := 7/10

/-- Relative time for the left/right animation (`const float LR_TIME = 0.4`). -/
def LR_TIME : ℚ := 2/5

/-- Delay after which the left/right animation starts (`const float LR_DELAY = 0.6`). -/
def LR_DELAY : ℚ := 3/5

/-- Relative time for the final fade to transparency (`const float FF_TIME = 0.1`). -/
def FF_TIME : ℚ := 1/10

/-! ## TV effect compositor (`src/TVEffect.js`, `vfunc_build_pipeline` code block) -/

/-- Direction reversal: `float progress = uForOpening ? 1.0-uProgress : uProgress;` -/
def reverseProgress (uForOpening : Bool) (uProgress : ℚ) : ℚ :=
  if uForOpening then 1 - uProgress else uProgress

/-- Clamped local progress of the top/bottom phase:
`clamp(progress/TB_TIME, 0, 1)`. -/
def tbLocal (progress : ℚ) : ℚ := clamp (progress / TB_TIME) 0 1

/-- Clamped local progress of the left/right phase:
`clamp((progress - LR_DELAY)/LR_TIME, 0, 1)`. -/
def lrLocal (progress : ℚ) : ℚ := clamp ((progress - LR_DELAY) / LR_TIME) 0 1

/-- Clamped local progress of the final-fade phase:
`clamp((progress - 1.0 + FF_TIME)/FF_TIME, 0, 1)`. -/
def ffLocal (progress : ℚ) : ℚ := clamp ((progress - 1 + FF_TIME) / FF_TIME) 0 1

/-- Eased top/bottom progress: `float tbProgress = smoothstep(0, 1, clamp(progress/TB_TIME, 0, 1));` -/
def tbProgress (progress : ℚ) : ℚ := smoothstep 0 1 (tbLocal progress)

/-- Eased left/right progress: `float lrProgress = smoothstep(0, 1, clamp((progress - LR_DELAY)/LR_TIME, 0, 1));` -/
def lrProgress (progress : ℚ) : ℚ := smoothstep 0 1 (lrLocal progress)

/-- Eased final-fade progress: `float ffProgress = smoothstep(0, 1, clamp((progress - 1.0 + FF_TIME)/FF_TIME, 0, 1));` -/
def ffProgress (progress : ℚ) : ℚ := smoothstep 0 1 (ffLocal progress)

/-- The folded spatial gradient: `float g = u * 2; g = g < 1 ? g : 2 - g;`.
Used for both the top-center-bottom gradient (on `cogl_tex_coord_in[0].t`)
and the left-center-right gradient (on `cogl_tex_coord_in[0].s`). -/
def foldGradient (u : ℚ) : ℚ :=
  if u * 2 < 1 then u * 2 else 2 - u * 2

/-- The per-phase wipe mask combining an eased phase progress with its spatial
gradient: `1 - smoothstep(0, 1, clamp((eased - g) / BLUR_WIDTH, 0, 1))`.
This is the formula of both `tbMask` and `lrMask` in the fragment code. -/
def phaseMask (eased g : ℚ) : ℚ :=
  1 - smoothstep 0 1 (clamp ((eased - g) / BLUR_WIDTH) 0 1)

/-- The final multiplicative alpha mask `tbMask * lrMask * ffMask` of the TV
effect fragment code, as a function of the direction flag, the raw progress
`uProgress` and the texture coordinates `s`, `t`. -/
def tvMask (uForOpening : Bool) (uProgress s t : ℚ) : ℚ :=
  let progress := reverseProgress uForOpening uProgress
  let tb := foldGradient t
  let lr := foldGradient s
  let tbMask := phaseMask (tbProgress progress) tb
  let lrMask := phaseMask (lrProgress progress) lr
  let ffMask := 1 - smoothstep 0 1 (ffProgress progress)
  tbMask * lrMask * ffMask

/-- An RGBA color value (`cogl_color_out` / the sampled texel). -/
structure Vec4 where
  r : ℚ
  g : ℚ
  b : ℚ
  a : ℚ
  deriving DecidableEq, Repr

/-- The value of the `uColor` uniform (an RGB triple). -/
structure Color where
  red : ℚ
  green : ℚ
  blue : ℚ
  deriving DecidableEq, Repr

/-- The premultiplied-to-straight alpha conversion of the fragment code:
`if (cogl_color_out.a > 0) { cogl_color_out.rgb /= cogl_color_out.a; }`.
The division is guarded: it only happens when the sampled alpha is
strictly positive. -/
def unpremultiply (c : Vec4) : Vec4 :=
  if 0 < c.a then { c with r := c.r / c.a, g := c.g / c.a, b := c.b / c.a } else c

/-- The color-blend step of the fragment code:
`cogl_color_out.rgb = mix(cogl_color_out.rgb, uColor * cogl_color_out.a,
smoothstep(0, 1, progress));`. -/
def colorBlend (c : Vec4) (uColor : Color) (progress : ℚ) : Vec4 :=
  { c with
    r := mix c.r (uColor.red * c.a) (smoothstep 0 1 progress)
    g := mix c.g (uColor.green * c.a) (smoothstep 0 1 progress)
    b := mix c.b (uColor.blue * c.a) (smoothstep 0 1 progress) }

/-- The final masking step: `cogl_color_out.a *= mask;`. -/
def applyMask (c : Vec4) (mask : ℚ) : Vec4 :=
  { c with a := c.a * mask }

/-- The complete fragment computation of the TV effect, transcribed
statement-by-statement from the `code` block of `vfunc_build_pipeline`.
`tex` is the texel `texture2D(uTexture, cogl_tex_coord_in[0].st)`;
`s`, `t` are the texture coordinates. -/
def tvFragment (uForOpening : Bool) (uProgress : ℚ) (uColor : Color)
    (tex : Vec4) (s t : ℚ) : Vec4 :=
  let progress := if uForOpening then 1 - uProgress else uProgress
  let tbP := smoothstep 0 1 (clamp (progress / TB_TIME) 0 1)
  let lrP := smoothstep 0 1 (clamp ((progress - LR_DELAY) / LR_TIME) 0 1)
  let ffP := smoothstep 0 1 (clamp ((progress - 1 + FF_TIME) / FF_TIME) 0 1)
  let tb0 := t * 2
  let tb := if tb0 < 1 then tb0 else 2 - tb0
  let lr0 := s * 2
  let lr := if lr0 < 1 then lr0 else 2 - lr0
  let tbMask := 1 - smoothstep 0 1 (clamp ((tbP - tb) / BLUR_WIDTH) 0 1)
  let lrMask := 1 - smoothstep 0 1 (clamp ((lrP - lr) / BLUR_WIDTH) 0 1)
  let ffMask := 1 - smoothstep 0 1 ffP
  let mask := tbMask * lrMask * ffMask
  let c0 := tex
  let c1 := if 0 < c0.a then
      { c0 with r := c0.r / c0.a, g := c0.g / c0.a, b := c0.b / c0.a } else c0
  let c2 := { c1 with
      r := mix c1.r (uColor.red * c1.a) (smoothstep 0 1 progress)
      g := mix c1.g (uColor.green * c1.a) (smoothstep 0 1 progress)
      b := mix c1.b (uColor.blue * c1.a) (smoothstep 0 1 progress) }
  { c2 with a := c2.a * mask }

/-! ## Shader pool (`src/TVEffect.js`, `TVEffect` statics and `ShaderClass`)

The module holds `let freeShaders = []`, a JavaScript array used as a stack:
`free()` pushes onto its end, `getShader` pops from its end. We model the
array with a Lean list whose head is the array's end (its top), so that a
JS `push` is `::` and a JS `pop` takes the head. Object identity of a
`ShaderClass` instance is modelled by a numeric `id` stamped at
construction; a fresh construction (`new ShaderClass()`) takes the pool
state's `nextId` counter, which only ever grows. -/

/-- The `Clutter.Color` parsed from the `tv-effect-color` settings string:
byte components `red`, `green`, `blue`. -/
structure ClutterColor where
  red : ℕ
  green : ℕ
  blue : ℕ
  deriving DecidableEq, Repr

/-- The settings store, restricted to the keys the TV effect reads. -/
structure Settings where
  tvEffectColor : ClutterColor
  deriving DecidableEq, Repr

/-- A `ShaderClass` instance: its identity and the current value of its
`uColor` uniform. -/
structure ShaderInstance where
  id : ℕ
  uColor : Color
  deriving DecidableEq, Repr

/-- The module-level mutable state of `TVEffect.js`: the `freeShaders` array
(head = top of the stack) plus the allocator counter modelling object
identity of freshly constructed instances. -/
structure PoolState where
  freeShaders : List ShaderInstance
  nextId : ℕ
  deriving DecidableEq, Repr

/-- Construction `new ShaderClass()`: a fresh instance; its uniform value starts at the
GL default (zero) and is meaningless until `setUniforms` runs. -/
def newShader (id : ℕ) : ShaderInstance :=
  { id := id, uColor := ⟨0, 0, 0⟩ }

/-- Configuration `ShaderClass.setUniforms(actor, settings, forOpening)`: parses the
`tv-effect-color` setting and overwrites the `uColor` uniform with
`[c.red / 255, c.green / 255, c.blue / 255]`. -/
def setUniforms (settings : Settings) (sh : ShaderInstance) : ShaderInstance :=
  let c := settings.tvEffectColor
  { sh with uColor := ⟨(c.red : ℚ) / 255, (c.green : ℚ) / 255, (c.blue : ℚ) / 255⟩ }

/-- Acquisition `TVEffect.getShader(actor, settings, forOpening)`: if `freeShaders` is
empty, construct a new instance, else pop one; then call `setUniforms` on it
and return it. -/
def getShader (settings : Settings) (s : PoolState) : ShaderInstance × PoolState :=
  match s.freeShaders with
  | [] => (setUniforms settings (newShader s.nextId),
           { freeShaders := [], nextId := s.nextId + 1 })
  | sh :: rest => (setUniforms settings sh, { s with freeShaders := rest })

/-- Release `ShaderClass.free()`: `freeShaders.push(this)`. -/
def free (sh : ShaderInstance) (s : PoolState) : PoolState :=
  { s with freeShaders := sh :: s.freeShaders }

/-- Teardown `TVEffect.cleanUp()`: `freeShaders = [];`. The allocator counter is not
part of the JavaScript state; it models object identity, and constructions
after a `cleanUp` still yield objects distinct from all earlier ones. -/
def cleanUp (s : PoolState) : PoolState :=
  { s with freeShaders := [] }

/-- Well-formedness of the pool state: the free list holds no two aliases of
one instance, and every pooled instance was allocated in the past. This holds
for every state reachable from the initial state `⟨[], 0⟩`. -/
def WFPool (s : PoolState) : Prop :=
  (s.freeShaders.map ShaderInstance.id).Nodup ∧
    ∀ sh ∈ s.freeShaders, sh.id < s.nextId

/-! ### Traces of pool operations

For the teardown claim we follow the pool through an arbitrary sequence of
operations after a `cleanUp`, tracking which instances are currently
outstanding (returned by `getShader` and not yet freed). -/

/-- The pool together with the outstanding (acquired, not yet freed)
instances. -/
structure SysState where
  pool : PoolState
  outstanding : List ShaderInstance
  deriving DecidableEq, Repr

/-- One host-driven pool operation: request a shader for a transition, or
return the `k`-th outstanding instance to the pool. -/
inductive PoolOp where
  | get : Settings → PoolOp
  | release : ℕ → PoolOp
  deriving DecidableEq, Repr

/-- Execute one operation. A `release` of an index that names no outstanding
instance does nothing (the host only frees instances it holds). -/
def stepOp (s : SysState) : PoolOp → SysState
  | .get settings =>
    let r := getShader settings s.pool
    { pool := r.2, outstanding := r.1 :: s.outstanding }
  | .release k =>
    match s.outstanding[k]? with
    | none => s
    | some sh => { pool := free sh s.pool, outstanding := s.outstanding.eraseIdx k }

/-- Execute a sequence of operations. -/
def runOps (s : SysState) (ops : List PoolOp) : SysState :=
  ops.foldl stepOp s

/-- Every instance identity present in the system — pooled or outstanding —
is at least `n`, and the allocator will never again produce an identity
below `n`. This is the isolation invariant maintained after a teardown. -/
def IdsGE (n : ℕ) (t : SysState) : Prop :=
  (∀ sh ∈ t.pool.freeShaders, n ≤ sh.id) ∧
    (∀ sh ∈ t.outstanding, n ≤ sh.id) ∧ n ≤ t.pool.nextId

/-! ## Doom effect configuration (`src/Doom.js`, `begin-animation` handler) -/

/-- The settings store, restricted to the keys the Doom effect reads. -/
structure DoomSettings where
  testMode : Bool
  doomHorizontalScale : ℚ
  doomVerticalScale : ℚ
  doomPixelSize : ℤ
  deriving DecidableEq, Repr

/-- The four uniform values written by the Doom effect at animation start. -/
structure DoomUniforms where
  uActorScale : ℚ
  uHorizontalScale : ℚ
  uVerticalScale : ℚ
  uPixelSize : ℚ
  deriving DecidableEq, Repr

/-- The `begin-animation` handler of `src/Doom.js`: computes
`actorScale = 2.0 * Math.max(1.0, global.stage.height / actor.height)` and
writes the four uniforms, substituting fixed values for `uActorScale` and
`uVerticalScale` when the `test-mode` setting is on. -/
def doomBeginAnimation (stageHeight actorHeight : ℚ)
    (settings : DoomSettings) : DoomUniforms :=
  let actorScale := 2 * max 1 (stageHeight / actorHeight)
  { uActorScale := if settings.testMode then 1 else actorScale
    uHorizontalScale := settings.doomHorizontalScale
    uVerticalScale := if settings.testMode then 500 else settings.doomVerticalScale
    uPixelSize := (settings.doomPixelSize : ℚ) }

/-! ## Helper lemmas about the GLSL primitives -/

theorem clamp01_of_nonpos {x : ℚ} (h : x ≤ 0) : clamp x 0 1 = 0 := by
  rw [clamp, max_eq_right h]
  exact min_eq_left zero_le_one

theorem clamp01_of_one_le {x : ℚ} (h : 1 ≤ x) : clamp x 0 1 = 1 := by
  rw [clamp, max_eq_left (le_trans zero_le_one h), min_eq_right h]

theorem clamp01_nonneg (x : ℚ) : 0 ≤ clamp x 0 1 :=
  le_min (le_max_right x 0) zero_le_one

theorem clamp01_le_one (x : ℚ) : clamp x 0 1 ≤ 1 :=
  min_le_right _ _

theorem clamp01_mono {x y : ℚ} (h : x ≤ y) : clamp x 0 1 ≤ clamp y 0 1 :=
  min_le_min (max_le_max h le_rfl) le_rfl

theorem smoothstep01 (x : ℚ) : smoothstep 0 1 x = hermite3 (clamp x 0 1) := by
  rw [smoothstep, sub_zero, sub_zero, div_one]

theorem smoothstep01_of_nonpos {x : ℚ} (h : x ≤ 0) : smoothstep 0 1 x = 0 := by
  rw [smoothstep01, clamp01_of_nonpos h, hermite3]
  ring

theorem smoothstep01_of_one_le {x : ℚ} (h : 1 ≤ x) : smoothstep 0 1 x = 1 := by
  rw [smoothstep01, clamp01_of_one_le h, hermite3]
  ring

theorem phaseMask_of_le {eased g : ℚ} (h : eased ≤ g) : phaseMask eased g = 1 := by
  have hx : (eased - g) / BLUR_WIDTH ≤ 0 :=
    div_nonpos_iff.mpr (Or.inr ⟨by linarith, by norm_num [BLUR_WIDTH]⟩)
  rw [phaseMask, clamp01_of_nonpos hx, smoothstep01_of_nonpos le_rfl]
  ring

theorem phaseMask_of_ge {eased g : ℚ} (h : g + BLUR_WIDTH ≤ eased) :
    phaseMask eased g = 0 := by
  have hb : (0:ℚ) < BLUR_WIDTH := by norm_num [BLUR_WIDTH]
  have hx : 1 ≤ (eased - g) / BLUR_WIDTH :=
    (one_le_div hb).mpr (by linarith)
  rw [phaseMask, clamp01_of_one_le hx, smoothstep01_of_one_le le_rfl]
  ring

theorem foldGradient_nonneg {u : ℚ} (h0 : 0 ≤ u) (h1 : u ≤ 1) :
    0 ≤ foldGradient u := by
  rw [foldGradient]
  split <;> linarith

theorem tbProgress_zero : tbProgress 0 = 0 := by
  rw [tbProgress, tbLocal, zero_div, clamp01_of_nonpos le_rfl,
    smoothstep01_of_nonpos le_rfl]

theorem lrProgress_zero : lrProgress 0 = 0 := by
  have hx : ((0:ℚ) - LR_DELAY) / LR_TIME ≤ 0 := by norm_num [LR_DELAY, LR_TIME]
  rw [lrProgress, lrLocal, clamp01_of_nonpos hx, smoothstep01_of_nonpos le_rfl]

theorem ffProgress_zero : ffProgress 0 = 0 := by
  have hx : ((0:ℚ) - 1 + FF_TIME) / FF_TIME ≤ 0 := by norm_num [FF_TIME]
  rw [ffProgress, ffLocal, clamp01_of_nonpos hx, smoothstep01_of_nonpos le_rfl]

theorem ffProgress_one : ffProgress 1 = 1 := by
  have hx : (1:ℚ) ≤ ((1:ℚ) - 1 + FF_TIME) / FF_TIME := by norm_num [FF_TIME]
  rw [ffProgress, ffLocal, clamp01_of_one_le hx, smoothstep01_of_one_le le_rfl]

/-! ## Claims -/

/-- C1 counterexample: with `BLUR_WIDTH = 0.01`, at gradient `g = 0` and
eased progress `1 > 0` the per-phase mask
`1 - smoothstep(clamp((eased - g)/BLUR_WIDTH, 0, 1))` evaluates to `0`, not
`1`; and at `g = 1` with `eased = 1` it evaluates to `1`, not `0`. The
claim has both boundary values inverted. -/
theorem C1_counterexample :
    (0:ℚ) < 1 ∧ phaseMask 1 0 ≠ 1 ∧ phaseMask 1 1 ≠ 0 := by
  refine ⟨by norm_num, ?_, ?_⟩
  · rw [phaseMask_of_ge (by norm_num [BLUR_WIDTH])]
    norm_num
  · rw [phaseMask_of_le le_rfl]
    norm_num

/-- C1 (amended): for the per-phase mask
`mask = 1 - smoothstep(clamp((eased - g)/BLUR_WIDTH, 0, 1))` with
`BLUR_WIDTH = 0.01`, at gradient `g = 0` the mask evaluates to `0` for every
eased progress `≥ BLUR_WIDTH` (the edges are the first places fully
resolved), and at gradient `g = 1` with `eased = 1` the mask evaluates to
`1` (this wipe mask leaves the center untouched until the end; the separate
final fade takes it to `0`). -/
theorem C1_phaseMask_edge_center (eased : ℚ) (h : BLUR_WIDTH ≤ eased) :
    phaseMask eased 0 = 0 ∧ phaseMask 1 1 = 1 := by
  constructor
  · exact phaseMask_of_ge (by rw [zero_add]; exact h)
  · exact phaseMask_of_le le_rfl

/-- Witness for C1 (amended) at `eased = 1`. -/
theorem C1_phaseMask_edge_center_witness :
    BLUR_WIDTH ≤ (1:ℚ) ∧ (phaseMask 1 0 = 0 ∧ phaseMask 1 1 = 1) :=
  ⟨by norm_num [BLUR_WIDTH],
   C1_phaseMask_edge_center 1 (by norm_num [BLUR_WIDTH])⟩

/-- C2: the compositor output (both the full fragment color and the final
mask) for an opening transition at progress `p` equals the output for a
closing transition at progress `1 - p`: the computation depends on
`uProgress` and `uForOpening` only through
`progress = uForOpening ? 1 - uProgress : uProgress`. -/
theorem C2_time_reversal (p s t : ℚ) (uColor : Color) (tex : Vec4) :
    tvFragment true p uColor tex s t = tvFragment false (1 - p) uColor tex s t ∧
    tvMask true p s t = tvMask false (1 - p) s t :=
  ⟨rfl, rfl⟩

/-- C3: for a closing transition with the TV effect's phase constants, the
final multiplicative mask `tbMask * lrMask * ffMask` is `1` at progress `0`
and `0` at progress `1`, for every texture coordinate in `[0,1]²`. -/
theorem C3_closing_mask_boundary (s t : ℚ)
    (hs0 : 0 ≤ s) (hs1 : s ≤ 1) (ht0 : 0 ≤ t) (ht1 : t ≤ 1) :
    tvMask false 0 s t = 1 ∧ tvMask false 1 s t = 0 := by
  constructor
  · have hrev : reverseProgress false 0 = 0 := rfl
    simp only [tvMask, hrev, tbProgress_zero, lrProgress_zero, ffProgress_zero]
    rw [phaseMask_of_le (foldGradient_nonneg ht0 ht1),
      phaseMask_of_le (foldGradient_nonneg hs0 hs1),
      smoothstep01_of_nonpos le_rfl]
    ring
  · have hrev : reverseProgress false 1 = 1 := rfl
    simp only [tvMask, hrev, ffProgress_one]
    rw [smoothstep01_of_one_le le_rfl]
    ring

/-- Witness for C3 at the texture coordinate `(1/2, 1/2)`. -/
theorem C3_closing_mask_boundary_witness :
    (0:ℚ) ≤ 1/2 ∧ (1:ℚ)/2 ≤ 1 ∧
      (tvMask false 0 (1/2) (1/2) = 1 ∧ tvMask false 1 (1/2) (1/2) = 0) :=
  ⟨by norm_num, by norm_num,
   C3_closing_mask_boundary (1/2) (1/2) (by norm_num) (by norm_num)
     (by norm_num) (by norm_num)⟩

/-- C5: for each of the TV effect's three phases — top/bottom (start `0`,
duration `TB_TIME = 0.7`), left/right (start `LR_DELAY = 0.6`, duration
`LR_TIME = 0.4`) and final fade (start `1 - FF_TIME = 0.9`, duration
`FF_TIME = 0.1`) — the clamped local phase progress is monotonically
non-decreasing in the forward progress over `[0,1]` and bounded in `[0,1]`. -/
theorem C5_phase_local_monotone_bounded (p q : ℚ)
    (hp : 0 ≤ p) (hq : q ≤ 1) (hpq : p ≤ q) :
    (tbLocal p ≤ tbLocal q ∧ 0 ≤ tbLocal p ∧ tbLocal p ≤ 1) ∧
    (lrLocal p ≤ lrLocal q ∧ 0 ≤ lrLocal p ∧ lrLocal p ≤ 1) ∧
    (ffLocal p ≤ ffLocal q ∧ 0 ≤ ffLocal p ∧ ffLocal p ≤ 1) := by
  have hTB : (0:ℚ) ≤ TB_TIME := by norm_num [TB_TIME]
  have hLR : (0:ℚ) ≤ LR_TIME := by norm_num [LR_TIME]
  have hFF : (0:ℚ) ≤ FF_TIME := by norm_num [FF_TIME]
  refine ⟨⟨clamp01_mono ?_, clamp01_nonneg _, clamp01_le_one _⟩,
    ⟨clamp01_mono ?_, clamp01_nonneg _, clamp01_le_one _⟩,
    ⟨clamp01_mono ?_, clamp01_nonneg _, clamp01_le_one _⟩⟩
  · exact div_le_div_of_nonneg_right hpq hTB
  · exact div_le_div_of_nonneg_right (by linarith) hLR
  · exact div_le_div_of_nonneg_right (by linarith) hFF

/-- Witness for C5 at `p = 0`, `q = 1`. -/
theorem C5_phase_local_monotone_bounded_witness :
    (0:ℚ) ≤ 0 ∧ (1:ℚ) ≤ 1 ∧ (0:ℚ) ≤ 1 ∧
      ((tbLocal 0 ≤ tbLocal 1 ∧ 0 ≤ tbLocal 0 ∧ tbLocal 0 ≤ 1) ∧
       (lrLocal 0 ≤ lrLocal 1 ∧ 0 ≤ lrLocal 0 ∧ lrLocal 0 ≤ 1) ∧
       (ffLocal 0 ≤ ffLocal 1 ∧ 0 ≤ ffLocal 0 ∧ ffLocal 0 ≤ 1)) :=
  ⟨le_rfl, le_rfl, by norm_num,
   C5_phase_local_monotone_bounded 0 1 le_rfl le_rfl (by norm_num)⟩

/-! ## Pool lemmas -/

theorem getShader_fst_id_cases (st : Settings) (p : PoolState) :
    (getShader st p).1.id ∈ p.freeShaders.map ShaderInstance.id ∨
      (getShader st p).1.id = p.nextId := by
  obtain ⟨fs, n⟩ := p
  cases fs with
  | nil => exact Or.inr rfl
  | cons sh rest => exact Or.inl (by simp [getShader, setUniforms])

theorem stepOp_preserves_IdsGE {n : ℕ} {t : SysState} (h : IdsGE n t)
    (op : PoolOp) : IdsGE n (stepOp t op) := by
  obtain ⟨hfree, hout, hnext⟩ := h
  cases op with
  | get st =>
    obtain ⟨⟨fs, m⟩, outs⟩ := t
    cases fs with
    | nil =>
      refine ⟨fun sh hsh => absurd hsh (List.not_mem_nil sh), ?_, ?_⟩
      · intro sh hsh
        rcases List.mem_cons.mp hsh with h1 | h1
        · subst h1; exact hnext
        · exact hout sh h1
      · exact Nat.le_succ_of_le hnext
    | cons sh0 rest =>
      refine ⟨fun sh hsh => hfree sh (List.mem_cons_of_mem sh0 hsh), ?_, hnext⟩
      intro sh hsh
      rcases List.mem_cons.mp hsh with h1 | h1
      · subst h1
        exact hfree sh0 (List.mem_cons_self sh0 rest)
      · exact hout sh h1
  | release k =>
    rw [stepOp]
    cases hk : t.outstanding[k]? with
    | none => exact ⟨hfree, hout, hnext⟩
    | some sh =>
      refine ⟨?_, ?_, hnext⟩
      · intro sh2 hsh2
        rcases List.mem_cons.mp hsh2 with h1 | h1
        · subst h1; exact hout sh2 (List.getElem?_mem hk)
        · exact hfree sh2 h1
      · intro sh2 hsh2
        exact hout sh2 (List.eraseIdx_subset t.outstanding k hsh2)

theorem runOps_preserves_IdsGE {n : ℕ} (ops : List PoolOp) (t : SysState)
    (h : IdsGE n t) : IdsGE n (runOps t ops) := by
  induction ops generalizing t with
  | nil => exact h
  | cons op rest ih => exact ih _ (stepOp_preserves_IdsGE h op)

/-- C4: after `getShader(); free(x); getShader()`, the second `getShader`
returns the very instance `x` (same identity); and a second `getShader`
issued before any `free` returns an instance distinct from the first one. -/
theorem C4_pool_round_trip (s : PoolState) (hwf : WFPool s)
    (st1 st2 st3 : Settings) :
    (getShader st2 (free (getShader st1 s).1 (getShader st1 s).2)).1.id
        = (getShader st1 s).1.id ∧
    (getShader st3 (getShader st1 s).2).1.id ≠ (getShader st1 s).1.id := by
  obtain ⟨fs, n⟩ := s
  obtain ⟨hnodup, hlt⟩ := hwf
  constructor
  · cases fs <;> rfl
  · cases fs with
    | nil =>
      show n + 1 ≠ n
      omega
    | cons sh rest =>
      cases rest with
      | nil =>
        show n ≠ sh.id
        have h1 : sh.id < n := hlt sh (List.mem_cons_self sh [])
        omega
      | cons sh2 rest2 =>
        show sh2.id ≠ sh.id
        rw [List.map_cons, List.nodup_cons] at hnodup
        have : sh.id ≠ sh2.id := by
          intro heq
          exact hnodup.1 (by rw [heq]; simp)
        omega

/-- Witness for C4 from the empty well-formed pool. -/
theorem C4_pool_round_trip_witness :
    WFPool ⟨[], 0⟩ ∧
      ((getShader ⟨⟨0, 0, 0⟩⟩ (free (getShader ⟨⟨0, 0, 0⟩⟩ (⟨[], 0⟩ : PoolState)).1
            (getShader ⟨⟨0, 0, 0⟩⟩ (⟨[], 0⟩ : PoolState)).2)).1.id
          = (getShader ⟨⟨0, 0, 0⟩⟩ (⟨[], 0⟩ : PoolState)).1.id ∧
        (getShader ⟨⟨0, 0, 0⟩⟩ ((getShader ⟨⟨0, 0, 0⟩⟩ (⟨[], 0⟩ : PoolState)).2)).1.id
          ≠ (getShader ⟨⟨0, 0, 0⟩⟩ (⟨[], 0⟩ : PoolState)).1.id) :=
  ⟨⟨List.nodup_nil, fun sh hsh => absurd hsh (List.not_mem_nil sh)⟩,
   C4_pool_round_trip ⟨[], 0⟩
     ⟨List.nodup_nil, fun sh hsh => absurd hsh (List.not_mem_nil sh)⟩
     ⟨⟨0, 0, 0⟩⟩ ⟨⟨0, 0, 0⟩⟩ ⟨⟨0, 0, 0⟩⟩⟩

/-- C8: after `cleanUp()` with no acquired instances outstanding, the free
list is empty; `cleanUp()` is idempotent; and no `getShader` call after the
teardown — following any sequence of acquisitions and releases of
post-teardown instances — returns an instance that was in the pool before
the teardown. -/
theorem C8_cleanup_drains_and_isolates (s : PoolState) (hwf : WFPool s)
    (ops : List PoolOp) (st : Settings) :
    (cleanUp s).freeShaders = [] ∧
    cleanUp (cleanUp s) = cleanUp s ∧
    (getShader st (runOps ⟨cleanUp s, []⟩ ops).pool).1.id
        ∉ s.freeShaders.map ShaderInstance.id := by
  refine ⟨rfl, rfl, ?_⟩
  intro hmem
  obtain ⟨x, hx, hxid⟩ := List.mem_map.mp hmem
  have hxlt : x.id < s.nextId := hwf.2 x hx
  have hinv : IdsGE s.nextId (runOps ⟨cleanUp s, []⟩ ops) :=
    runOps_preserves_IdsGE ops _
      ⟨fun sh hsh => absurd hsh (List.not_mem_nil sh),
       fun sh hsh => absurd hsh (List.not_mem_nil sh), le_rfl⟩
  rcases getShader_fst_id_cases st (runOps ⟨cleanUp s, []⟩ ops).pool with hc | hc
  · obtain ⟨y, hy, hyid⟩ := List.mem_map.mp hc
    have := hinv.1 y hy
    omega
  · have := hinv.2.2
    omega

/-- Witness for C8 from a well-formed one-element pool with an empty
operation sequence after the teardown. -/
theorem C8_cleanup_drains_and_isolates_witness :
    WFPool ⟨[⟨0, ⟨0, 0, 0⟩⟩], 1⟩ ∧
      ((cleanUp ⟨[⟨0, ⟨0, 0, 0⟩⟩], 1⟩).freeShaders = [] ∧
       cleanUp (cleanUp ⟨[⟨0, ⟨0, 0, 0⟩⟩], 1⟩) = cleanUp ⟨[⟨0, ⟨0, 0, 0⟩⟩], 1⟩ ∧
       (getShader ⟨⟨0, 0, 0⟩⟩
           (runOps ⟨cleanUp ⟨[⟨0, ⟨0, 0, 0⟩⟩], 1⟩, []⟩ []).pool).1.id
         ∉ (⟨[⟨0, ⟨0, 0, 0⟩⟩], 1⟩ : PoolState).freeShaders.map ShaderInstance.id) :=
  ⟨⟨by simp, by simp⟩,
   C8_cleanup_drains_and_isolates ⟨[⟨0, ⟨0, 0, 0⟩⟩], 1⟩ ⟨by simp, by simp⟩ []
     ⟨⟨0, 0, 0⟩⟩⟩

/-- C9: every instance handed out by `getShader` has had `setUniforms`
applied to it during that call: its `uColor` uniform equals the value
computed from the current settings, whatever the pool state and whatever
stale uniform values the pooled instances carried, and the returned
instance is a fixed point of `setUniforms` with the current settings. -/
theorem C9_getShader_configures (st : Settings) (s : PoolState) :
    (getShader st s).1.uColor =
      ⟨(st.tvEffectColor.red : ℚ) / 255, (st.tvEffectColor.green : ℚ) / 255,
       (st.tvEffectColor.blue : ℚ) / 255⟩ ∧
    (getShader st s).1 = setUniforms st (getShader st s).1 := by
  obtain ⟨fs, n⟩ := s
  cases fs <;> exact ⟨rfl, rfl⟩

/-- C10: if `cleanUp()` runs while an instance `x` is still outstanding, a
later `free(x)` appends `x` to the freshly reset free list, and the next
`getShader()` returns that pre-teardown instance `x`: the isolation
guarantee of the teardown depends on no instances being outstanding. -/
theorem C10_cleanup_with_outstanding (s : PoolState) (x : ShaderInstance)
    (st : Settings) :
    (free x (cleanUp s)).freeShaders = [x] ∧
    (getShader st (free x (cleanUp s))).1.id = x.id :=
  ⟨rfl, rfl⟩

/-- C6: in the Doom effect's `begin-animation` handler, with stage height
`S` and actor height `H > 0`, the `uActorScale` uniform is
`2 * max(1, S/H)` when test-mode is off and the constant `1.0` when
test-mode is on, for every `H`, `S` and stored settings; likewise
`uVerticalScale` is forced to the constant `500.0` in test mode. -/
theorem C6_doom_scale_uniforms (S H : ℚ) (hH : 0 < H)
    (settings : DoomSettings) :
    (settings.testMode = false →
      (doomBeginAnimation S H settings).uActorScale = 2 * max 1 (S / H)) ∧
    (settings.testMode = true →
      (doomBeginAnimation S H settings).uActorScale = 1 ∧
      (doomBeginAnimation S H settings).uVerticalScale = 500) := by
  constructor
  · intro h
    simp [doomBeginAnimation, h]
  · intro h
    simp [doomBeginAnimation, h]

/-- Witness for C6 at `S = 6`, `H = 2` in both test-mode settings. -/
theorem C6_doom_scale_uniforms_witness :
    (doomBeginAnimation 6 2 ⟨false, 7, 8, 9⟩).uActorScale = 2 * max 1 (6 / 2) ∧
    (doomBeginAnimation 6 2 ⟨true, 7, 8, 9⟩).uActorScale = 1 ∧
    (doomBeginAnimation 6 2 ⟨true, 7, 8, 9⟩).uVerticalScale = 500 :=
  ⟨(C6_doom_scale_uniforms 6 2 (by norm_num) ⟨false, 7, 8, 9⟩).1 rfl,
   ((C6_doom_scale_uniforms 6 2 (by norm_num) ⟨true, 7, 8, 9⟩).2 rfl).1,
   ((C6_doom_scale_uniforms 6 2 (by norm_num) ⟨true, 7, 8, 9⟩).2 rfl).2⟩

/-- C7: the premultiplied-to-straight alpha conversion is guarded — it
leaves the color untouched whenever the sampled alpha is zero or negative —
and the whole fragment computation factors as masking after color-blending
after a single `unpremultiply` applied to the sampled texel: the conversion
happens exactly once, before the color-blend step. -/
theorem C7_alpha_conversion_once (uForOpening : Bool) (uProgress : ℚ)
    (uColor : Color) (tex : Vec4) (s t : ℚ) :
    (tex.a ≤ 0 → unpremultiply tex = tex) ∧
    tvFragment uForOpening uProgress uColor tex s t =
      applyMask
        (colorBlend (unpremultiply tex) uColor
          (reverseProgress uForOpening uProgress))
        (tvMask uForOpening uProgress s t) := by
  refine ⟨fun h => ?_, rfl⟩
  rw [unpremultiply, if_neg (not_lt.mpr h)]

/-- Witness for C7 at a texel with zero alpha. -/
theorem C7_alpha_conversion_once_witness :
    unpremultiply ⟨2, 3, 4, 0⟩ = ⟨2, 3, 4, 0⟩ :=
  (C7_alpha_conversion_once false 0 ⟨0, 0, 0⟩ ⟨2, 3, 4, 0⟩ 0 0).1 le_rfl

end BurnMyWindows
